import Mathlib

/-!
Verification development for the AI backend review pipeline.

The JavaScript sources are shallowly embedded as Lean definitions:

* `JsonValue` / `jsonParseList` — a model of the platform `JSON.parse`
  (ECMA-404 grammar: no trailing commas, double-quoted strings only,
  the four JSON whitespace characters).  Number literals are kept as
  their lexeme, which is enough because no verified property compares
  numeric values.
* the response adapter `cleanGeminiResponse` (src/genai/adapter.js),
  with each regex rewrite of the source implemented as a dedicated
  character-list scanner with the exact semantics of the JS regex used;
* the AST extractor `extractFunctionCode` (src/analyzer/ast-parser.js),
  over a model of Babel parse trees (`Node`) and of the pre-order
  traversal with early stop performed by babel-traverse;
* the two route reflector implementations (src/analyzer/route-reflector.js)
  in namespaces `ReflectorMain` (the guarded one) and `ReflectorAlt`
  (the unguarded one), over a small filesystem model `FS`;
* the GenAI client `analyzeEndpoint` (src/genai/client.js) including the
  `p-retry` wrapper, with the network abstracted as an oracle from
  attempt number to outcome.
-/

/-! ### Character helpers

Characters that the house rules of this file spell via code points. -/

def braceL : Char := Char.ofNat 123

def braceR : Char := Char.ofNat 125

def dquoteC : Char := Char.ofNat 34

def squoteC : Char := Char.ofNat 39

def bquoteC : Char := Char.ofNat 96

def smartLQ : Char := Char.ofNat 8220

def smartRQ : Char := Char.ofNat 8221

/-- Whitespace of the JSON grammar (exactly space, tab, LF, CR). -/
def isJsonWs (c : Char) : Bool :=
  c = ' ' || c = '\t' || c = '\n' || c = '\r'

/-- Whitespace matched by the JS regex class backslash-s (and trimmed by
`String.prototype.trim`); the ASCII part plus NBSP is modelled. -/
def isRegexWs (c : Char) : Bool :=
  c = ' ' || c = '\t' || c = '\n' || c = '\r' ||
  c = Char.ofNat 11 || c = Char.ofNat 12 || c = Char.ofNat 160

def skipJsonWs (cs : List Char) : List Char := cs.dropWhile isJsonWs

/-- `[a-zA-Z0-9_]`, the word class of the handler capture in the first
route regex. -/
def isWord1 (c : Char) : Bool := c.isAlphanum || c = '_'

/-- `[\w$]`, the handler class of the second route regex. -/
def isWord2 (c : Char) : Bool := c.isAlphanum || c = '_' || c = '$'

/-- The three quote characters of the regex class used for route paths. -/
def isQuoteChar (c : Char) : Bool := c = dquoteC || c = squoteC || c = bquoteC

/-- Case-insensitive literal prefix: strip `pat` from the front of `cs`
comparing characters after `Char.toLower`, as a JS regex with the `i`
flag does for its literal parts. -/
def stripPrefixCI : List Char → List Char → Option (List Char)
  | [], cs => some cs
  | _ :: _, [] => none
  | p :: ps, c :: cs => if p.toLower = c.toLower then stripPrefixCI ps cs else none

/-! ### JSON values and a model of `JSON.parse` -/

inductive JsonValue where
  | null
  | bool (b : Bool)
  | num (lexeme : String)
  | str (s : String)
  | arr (elems : List JsonValue)
  | obj (members : List (String × JsonValue))

def hexVal (c : Char) : Option Nat :=
  if c.isDigit then some (c.toNat - 48)
  else if 97 ≤ c.toNat ∧ c.toNat ≤ 102 then some (c.toNat - 87)
  else if 65 ≤ c.toNat ∧ c.toNat ≤ 70 then some (c.toNat - 55)
  else none

/-- Body of a JSON string literal, after the opening quote: returns the
decoded characters and the rest after the closing quote.  Raw control
characters are rejected and only the JSON escapes are accepted, as in
`JSON.parse`. -/
def parseStringBody : List Char → Option (List Char × List Char)
  | [] => none
  | c :: rest =>
    if c = dquoteC then some ([], rest)
    else if c = '\\' then
      match rest with
      | [] => none
      | e :: rest2 =>
        if e = dquoteC then
          (parseStringBody rest2).map (fun p => (dquoteC :: p.1, p.2))
        else if e = '\\' then
          (parseStringBody rest2).map (fun p => ('\\' :: p.1, p.2))
        else if e = '/' then
          (parseStringBody rest2).map (fun p => ('/' :: p.1, p.2))
        else if e = 'b' then
          (parseStringBody rest2).map (fun p => (Char.ofNat 8 :: p.1, p.2))
        else if e = 'f' then
          (parseStringBody rest2).map (fun p => (Char.ofNat 12 :: p.1, p.2))
        else if e = 'n' then
          (parseStringBody rest2).map (fun p => ('\n' :: p.1, p.2))
        else if e = 'r' then
          (parseStringBody rest2).map (fun p => ('\r' :: p.1, p.2))
        else if e = 't' then
          (parseStringBody rest2).map (fun p => ('\t' :: p.1, p.2))
        else if e = 'u' then
          match rest2 with
          | h1 :: h2 :: h3 :: h4 :: rest3 =>
            match hexVal h1, hexVal h2, hexVal h3, hexVal h4 with
            | some a, some b, some c2, some d =>
              (parseStringBody rest3).map
                (fun p => (Char.ofNat (((a * 16 + b) * 16 + c2) * 16 + d) :: p.1, p.2))
            | _, _, _, _ => none
          | _ => none
        else none
    else if c.toNat < 32 then none
    else (parseStringBody rest).map (fun p => (c :: p.1, p.2))

/-- Optional fraction part of a number: `some ([], cs)` when absent,
`none` when a dot is not followed by a digit. -/
def parseFracPart : List Char → Option (List Char × List Char)
  | [] => some ([], [])
  | c :: r =>
    if c = '.' then
      let ds := r.takeWhile Char.isDigit
      if ds = [] then none else some (c :: ds, r.drop ds.length)
    else some ([], c :: r)

/-- Optional exponent part of a number. -/
def parseExpPart : List Char → Option (List Char × List Char)
  | [] => some ([], [])
  | c :: r =>
    if c = 'e' ∨ c = 'E' then
      let sr : List Char × List Char :=
        match r with
        | d :: r3 => if d = '+' ∨ d = '-' then ([d], r3) else ([], r)
        | [] => ([], [])
      let ds := sr.2.takeWhile Char.isDigit
      if ds = [] then none else some (c :: (sr.1 ++ ds), sr.2.drop ds.length)
    else some ([], c :: r)

/-- JSON number token; the lexeme is kept verbatim.  Leading zeros are
rejected as in the JSON grammar. -/
def parseNumberTok (cs : List Char) : Option (JsonValue × List Char) :=
  let split : List Char × List Char :=
    match cs with
    | c :: r => if c = '-' then ([c], r) else ([], cs)
    | [] => ([], [])
  match split.2 with
  | [] => none
  | c :: r =>
    if c.isDigit then
      let intPart : List Char × List Char :=
        if c = '0' then ([c], r)
        else ((c :: r).takeWhile Char.isDigit, (c :: r).dropWhile Char.isDigit)
      match parseFracPart intPart.2 with
      | none => none
      | some (fracLex, cs3) =>
        match parseExpPart cs3 with
        | none => none
        | some (expLex, cs4) =>
          some (.num (String.mk (split.1 ++ intPart.1 ++ fracLex ++ expLex)), cs4)
    else none

mutual

/-- Recursive-descent JSON value parser (fuel-bounded); expects `cs` to
start at a value (whitespace already skipped). -/
def parseValue : Nat → List Char → Option (JsonValue × List Char)
  | 0, _ => none
  | _ + 1, [] => none
  | f + 1, c :: rest =>
    if c = braceL then
      match skipJsonWs rest with
      | [] => none
      | d :: r2 => if d = braceR then some (.obj [], r2) else parseMembers f (d :: r2) []
    else if c = '[' then
      match skipJsonWs rest with
      | [] => none
      | d :: r2 => if d = ']' then some (.arr [], r2) else parseElems f (d :: r2) []
    else if c = dquoteC then
      match parseStringBody rest with
      | some (s, r) => some (.str (String.mk s), r)
      | none => none
    else if c = 'n' then
      match rest with
      | 'u' :: 'l' :: 'l' :: r => some (.null, r)
      | _ => none
    else if c = 't' then
      match rest with
      | 'r' :: 'u' :: 'e' :: r => some (.bool true, r)
      | _ => none
    else if c = 'f' then
      match rest with
      | 'a' :: 'l' :: 's' :: 'e' :: r => some (.bool false, r)
      | _ => none
    else parseNumberTok (c :: rest)

/-- Members of an object, positioned at a (non-`\x7d`) first member. -/
def parseMembers : Nat → List Char → List (String × JsonValue) →
    Option (JsonValue × List Char)
  | 0, _, _ => none
  | _ + 1, [], _ => none
  | f + 1, c :: rest, acc =>
    if c = dquoteC then
      match parseStringBody rest with
      | none => none
      | some (k, r1) =>
        match skipJsonWs r1 with
        | [] => none
        | d :: r2 =>
          if d = ':' then
            match parseValue f (skipJsonWs r2) with
            | none => none
            | some (v, r3) =>
              match skipJsonWs r3 with
              | [] => none
              | e :: r4 =>
                if e = ',' then
                  parseMembers f (skipJsonWs r4) (acc ++ [(String.mk k, v)])
                else if e = braceR then
                  some (.obj (acc ++ [(String.mk k, v)]), r4)
                else none
          else none
    else none

/-- Elements of an array, positioned at a (non-`]`) first element. -/
def parseElems : Nat → List Char → List JsonValue →
    Option (JsonValue × List Char)
  | 0, _, _ => none
  | f + 1, cs, acc =>
    match parseValue f cs with
    | none => none
    | some (v, r1) =>
      match skipJsonWs r1 with
      | [] => none
      | e :: r2 =>
        if e = ',' then parseElems f (skipJsonWs r2) (acc ++ [v])
        else if e = ']' then some (.arr (acc ++ [v]), r2)
        else none

end

/-- Model of `JSON.parse` on a character list: parse one value and
require only whitespace afterwards. -/
def jsonParseList (cs : List Char) : Option JsonValue :=
  match parseValue (2 * cs.length + 8) (skipJsonWs cs) with
  | some (v, rest) => if skipJsonWs rest = [] then some v else none
  | none => none

/-- JS property access `v.key` for a parsed JSON value: later duplicate
keys overwrite earlier ones; non-objects have no own properties. -/
def getProp (v : JsonValue) (key : String) : Option JsonValue :=
  match v with
  | .obj members => members.foldl (fun acc kv => if kv.1 = key then some kv.2 else acc) none
  | _ => none

/-- All mantissa digits of a JSON number lexeme are zero (the lexeme
denotes 0, the only falsy numeric value JSON can produce). -/
def numIsZero (lexeme : String) : Bool :=
  ((lexeme.data.takeWhile (fun c => c ≠ 'e' ∧ c ≠ 'E')).filter Char.isDigit).all
    (fun c => c = '0')

/-- JS truthiness of `v` where `none` models `undefined`. -/
def jsTruthy : Option JsonValue → Bool
  | none => false
  | some .null => false
  | some (.bool b) => b
  | some (.num lx) => !numIsZero lx
  | some (.str s) => s != ""
  | some (.arr _) => true
  | some (.obj _) => true

/-- JS `v || d` as used by the adapter's field normalization. -/
def jsOrDefault (v : Option JsonValue) (d : JsonValue) : JsonValue :=
  if jsTruthy v then v.getD d else d

/-! ### Response adapter (src/genai/adapter.js, `cleanGeminiResponse`)

Each `String.prototype.replace` call of the source is modelled by a
scanner with the semantics of the exact regex used (leftmost match,
non-overlapping continuation for the global ones). -/

/-- The fence marker, three backquotes. -/
def fence3 : List Char := "\x60\x60\x60".data

/-- Interior of a fenced block up to the first closing fence
(the lazy group of the fence regex); `none` when no closing fence. -/
def takeUntilFence : List Char → Option (List Char)
  | [] => none
  | c :: rest =>
    if fence3.isPrefixOf (c :: rest) then some []
    else (takeUntilFence rest).map (fun l => c :: l)

/-- First match of the fence regex: a case-insensitive tag
(three backquotes then `json`) followed, lazily, by a closing fence.
Returns the captured interior. -/
def findFence : List Char → Option (List Char)
  | [] => none
  | c :: rest =>
    match stripPrefixCI ("\x60\x60\x60json".data) (c :: rest) with
    | some after =>
      match takeUntilFence after with
      | some interior => some interior
      | none => findFence rest
    | none => findFence rest

/-- Index of the last occurrence of `c`. -/
def lastIdxOf (c : Char) (cs : List Char) : Option Nat :=
  match List.findIdx? (fun x => x = c) cs.reverse with
  | some i => some (cs.length - 1 - i)
  | none => none

/-- Step 1 of the adapter: the fenced interior when a tagged fence
matches, else the span from the first opening brace to the last closing
brace when that span is non-degenerate, else the raw text unchanged. -/
def extractCandidate (cs : List Char) : List Char :=
  match findFence cs with
  | some interior => interior
  | none =>
    match List.findIdx? (fun c => c = braceL) cs, lastIdxOf braceR cs with
    | some s, some e => if s < e then (cs.drop s).take (e + 1 - s) else cs
    | _, _ => cs

/-- Global deletion of a non-empty literal pattern, scanning left to
right without rescanning replaced output (JS `replace(/pat/g, "")`). -/
def removeAllLitGo (pat : List Char) : Nat → List Char → List Char
  | 0, cs => cs
  | _, [] => []
  | f + 1, c :: rest =>
    if pat.isPrefixOf (c :: rest) then removeAllLitGo pat f (rest.drop (pat.length - 1))
    else c :: removeAllLitGo pat f rest

def removeAllLit (pat cs : List Char) : List Char := removeAllLitGo pat cs.length cs

/-- Case-insensitive global deletion (JS `replace(/pat/gi, "")`). -/
def removeAllCIGo (pat : List Char) : Nat → List Char → List Char
  | 0, cs => cs
  | _, [] => []
  | f + 1, c :: rest =>
    match stripPrefixCI pat (c :: rest) with
    | some after => removeAllCIGo pat f after
    | none => c :: removeAllCIGo pat f rest

def removeAllCI (pat cs : List Char) : List Char := removeAllCIGo pat cs.length cs

def notBrace (c : Char) : Bool := !(c = braceL || c = braceR)

/-- One replace of a lazy run of non-brace characters anchored at the
start and followed by an opening brace, with that brace: it deletes the
junk before the first brace when that brace is an opening one. -/
def dropJunkBefore (cs : List Char) : List Char :=
  let rest := cs.dropWhile notBrace
  match rest with
  | c :: _ => if c = braceL then rest else cs
  | [] => cs

/-- One replace of a closing brace followed by a lazy run of non-brace
characters anchored at the end, with that brace: it deletes the junk
after the last brace when that brace is a closing one. -/
def dropJunkAfter (cs : List Char) : List Char :=
  let restRev := cs.reverse.dropWhile notBrace
  match restRev with
  | c :: _ => if c = braceR then restRev.reverse else cs
  | [] => cs

def trimJs (cs : List Char) : List Char :=
  ((cs.dropWhile isRegexWs).reverse.dropWhile isRegexWs).reverse

/-- Step 2 of the adapter: remove fences, delete every occurrence of
`json` case-insensitively, drop junk before the first and after the last
brace, and trim. -/
def cleanupCandidate (cs : List Char) : List Char :=
  trimJs (dropJunkAfter (dropJunkBefore (removeAllCI "json".data (removeAllLit fence3 cs))))

/-- Global rewrite deleting a comma (with following whitespace) that
precedes a closing bracket or brace. -/
def fixTrailingCommasGo : Nat → List Char → List Char
  | 0, cs => cs
  | _, [] => []
  | f + 1, c :: rest =>
    if c = ',' then
      let rest2 := rest.dropWhile isRegexWs
      match rest2 with
      | b :: rest3 =>
        if b = ']' || b = braceR then b :: fixTrailingCommasGo f rest3
        else c :: fixTrailingCommasGo f rest
      | [] => c :: fixTrailingCommasGo f rest
    else c :: fixTrailingCommasGo f rest

/-- Global rewrite inserting a comma between adjacent closing and
opening braces. -/
def fixObjectCommasGo : Nat → List Char → List Char
  | 0, cs => cs
  | _, [] => []
  | f + 1, c :: rest =>
    if c = braceR then
      let rest2 := rest.dropWhile isRegexWs
      match rest2 with
      | b :: rest3 =>
        if b = braceL then braceR :: ',' :: braceL :: fixObjectCommasGo f rest3
        else c :: fixObjectCommasGo f rest
      | [] => c :: fixObjectCommasGo f rest
    else c :: fixObjectCommasGo f rest

/-- Global rewrite inserting a comma between adjacent closing and
opening square brackets. -/
def fixArrayCommasGo : Nat → List Char → List Char
  | 0, cs => cs
  | _, [] => []
  | f + 1, c :: rest =>
    if c = ']' then
      let rest2 := rest.dropWhile isRegexWs
      match rest2 with
      | b :: rest3 =>
        if b = '[' then ']' :: ',' :: '[' :: fixArrayCommasGo f rest3
        else c :: fixArrayCommasGo f rest
      | [] => c :: fixArrayCommasGo f rest
    else c :: fixArrayCommasGo f rest

/-- Match at the current position of the key-quoting regex: an optional
quote, a non-empty greedy word run, an optional quote, then a colon.
Returns the word and the rest after the colon. -/
def matchKeyAt (cs : List Char) : Option (List Char × List Char) :=
  let q1 : Bool :=
    match cs with
    | c :: _ => c = dquoteC || c = squoteC
    | [] => false
  let cs1 := if q1 then cs.drop 1 else cs
  let w := cs1.takeWhile isWord1
  if w = [] then none
  else
    match cs1.drop w.length with
    | [] => none
    | c :: r2 =>
      if c = ':' then some (w, r2)
      else if c = dquoteC || c = squoteC then
        match r2 with
        | d :: r3 => if d = ':' then some (w, r3) else none
        | [] => none
      else none

/-- Global rewrite replacing every key-looking token before a colon by
the double-quoted key. -/
def fixKeysGo : Nat → List Char → List Char
  | 0, cs => cs
  | _, [] => []
  | f + 1, c :: rest =>
    match matchKeyAt (c :: rest) with
    | some (w, after) => dquoteC :: (w ++ (dquoteC :: ':' :: fixKeysGo f after))
    | none => c :: fixKeysGo f rest

/-- Global rewrite of curly quotes to plain double quotes. -/
def fixFancyQuotes (cs : List Char) : List Char :=
  cs.map (fun c => if c = smartLQ || c = smartRQ then dquoteC else c)

def fixTrailingCommas (cs : List Char) : List Char := fixTrailingCommasGo cs.length cs

def fixObjectCommas (cs : List Char) : List Char := fixObjectCommasGo cs.length cs

def fixArrayCommas (cs : List Char) : List Char := fixArrayCommasGo cs.length cs

def fixKeys (cs : List Char) : List Char := fixKeysGo cs.length cs

/-- The auto-repair pass of the adapter, applying its five rewrites in
source order. -/
def autoFix (cs : List Char) : List Char :=
  fixFancyQuotes (fixKeys (fixArrayCommas (fixObjectCommas (fixTrailingCommas cs))))

/-- The shapes `cleanGeminiResponse` can return: the missing-response
error object, the unparsable-response error object carrying the two
truncated snippets, or the normalized insight. -/
inductive CleanResult where
  | errObj (error : String)
  | errParse (error : String) (extracted : String) (raw : String)
  | insight (summary issues suggestions beforeAfter notes : JsonValue)

/-- Step 4 of the adapter: normalize the parsed value into the fixed
insight shape with the documented neutral defaults.  Property access on
a parsed `null` throws in JS, modelled as the `.error` case. -/
def normalizeParsed (parsed : JsonValue) : Except String CleanResult :=
  match parsed with
  | .null => .error "TypeError: Cannot read properties of null (reading \x27summary\x27)"
  | p =>
    .ok (.insight
      (jsOrDefault (getProp p "summary") (.str "No summary provided."))
      (jsOrDefault (getProp p "issues") (.arr []))
      (jsOrDefault (getProp p "suggestions") (.arr []))
      (jsOrDefault (getProp p "before_after") .null)
      (jsOrDefault (getProp p "notes") (.str "No notes provided.")))

/-- `cleanGeminiResponse(rawResponse)` of src/genai/adapter.js: extract a
candidate, clean it up, parse it, on failure auto-repair and re-parse
once, and on a second failure return the error shape with 400-character
snippets of the cleaned candidate and of the raw text. -/
def cleanGeminiResponse (rawResponse : String) : Except String CleanResult :=
  let cs := rawResponse.data
  if cs = [] then .ok (.errObj "No response from Gemini")
  else
    let extracted := cleanupCandidate (extractCandidate cs)
    match jsonParseList extracted with
    | some parsed => normalizeParsed parsed
    | none =>
      match jsonParseList (autoFix extracted) with
      | some parsed => normalizeParsed parsed
      | none =>
        .ok (.errParse "Invalid JSON (even after auto-fix)"
          (String.mk (extracted.take 400 ++ "...".data))
          (String.mk (cs.take 400 ++ "...".data)))

/-! ### Source extractor (src/analyzer/ast-parser.js, `extractFunctionCode`)

The Babel parse tree is modelled as `Node`: the kinds the two visitors
inspect carry their data (name, character span, async flag), every other
node is `otherKind`.  Spans are `start`/`end` offsets into the source
text, as in Babel.  `babel-traverse` visits nodes in pre-order and
`path.stop()` aborts the whole traversal, which `visitNode`/`visitList`
model by returning the first extraction produced. -/

structure FnInfo where
  startPos : Nat
  endPos : Nat
  isAsync : Bool

/-- The `init` of a variable declarator, as inspected by the second
visitor: only arrow-function and function expressions are extracted. -/
inductive InitVal where
  | arrowFn (info : FnInfo)
  | fnExpr (info : FnInfo)
  | otherInit

/-- Node kinds distinguished by the two registered visitors. -/
inductive NodeKind where
  | fnDecl (idName : Option String) (info : FnInfo)
  | varDeclarator (idName : Option String) (initVal : Option InitVal)
  | otherKind

inductive Node where
  | mk (kind : NodeKind) (children : List Node)

/-- What `extractFunctionCode` builds for a match: the handler name, the
sliced source text and the async flag (the `loc` of the source is not
modelled; no verified property concerns it). -/
structure Extracted where
  name : String
  code : String
  isAsync : Bool

/-- JS `code.slice(a, b)` for the in-range offsets Babel produces. -/
def sliceStr (s : String) (a b : Nat) : String :=
  String.mk ((s.data.drop a).take (b - a))

/-- The body of the two visitors: does this node kind produce an
extraction for `handlerName`? -/
def checkNode (code handlerName : String) : NodeKind → Option Extracted
  | .fnDecl idName info =>
    if idName = some handlerName then
      some ⟨handlerName, sliceStr code info.startPos info.endPos, info.isAsync⟩
    else none
  | .varDeclarator idName initVal =>
    if idName = some handlerName then
      match initVal with
      | some (.arrowFn info) =>
        some ⟨handlerName, sliceStr code info.startPos info.endPos, info.isAsync⟩
      | some (.fnExpr info) =>
        some ⟨handlerName, sliceStr code info.startPos info.endPos, info.isAsync⟩
      | _ => none
    else none
  | .otherKind => none

mutual

/-- Pre-order visit of one node; the first extraction stops the
traversal (`path.stop()`). -/
def visitNode (code handlerName : String) : Node → Option Extracted
  | .mk k cs =>
    match checkNode code handlerName k with
    | some e => some e
    | none => visitList code handlerName cs

/-- Pre-order visit of a sibling list. -/
def visitList (code handlerName : String) : List Node → Option Extracted
  | [] => none
  | n :: ns =>
    match visitNode code handlerName n with
    | some e => some e
    | none => visitList code handlerName ns

end

/-- `extractFunctionCode(filePath, handlerName)`: `none` when the file
does not exist; otherwise the result of traversing the parse tree of the
file contents (`ast`, the tree Babel produces for `code`). -/
def extractFunctionCode (fileExists : Bool) (code : String) (ast : List Node)
    (handlerName : String) : Option Extracted :=
  if fileExists then visitList code handlerName ast else none

mutual

/-- The kinds of a tree in pre-order (document order). -/
def preorderNode : Node → List NodeKind
  | .mk k cs => k :: preorderList cs

def preorderList : List Node → List NodeKind
  | [] => []
  | n :: ns => preorderNode n ++ preorderList ns

end

/-! ### Route reflectors (src/analyzer/route-reflector.js)

The file holds two implementations.  The first (`ReflectorMain`) guards
every entry point with `fs.existsSync`; the second (`ReflectorAlt`)
reads and lists directly.  The filesystem is a finite map; reads of
missing paths produce the `ENOENT` error a sync `fs` call throws. -/

structure FS where
  files : List (String × String)
  dirs : List (String × List String)
  cwd : String

def FS.existsPath (fs : FS) (p : String) : Bool :=
  (fs.files.lookup p).isSome || (fs.dirs.lookup p).isSome

def FS.readFile (fs : FS) (p : String) : Except String String :=
  match fs.files.lookup p with
  | some content => .ok content
  | none => .error ("ENOENT: no such file or directory, open " ++ p)

def FS.readdir (fs : FS) (p : String) : Except String (List String) :=
  match fs.dirs.lookup p with
  | some entries => .ok entries
  | none => .error ("ENOENT: no such file or directory, scandir " ++ p)

/-- Warnings the guarded reflector logs. -/
inductive Warn where
  | routeFileNotFound (path : String)
  | routesDirNotFound (path : String)

/-- One capture triple of a route regex (input slices). -/
structure RouteMatch where
  method : List Char
  path : List Char
  handler : List Char

def pathJoin (dir file : String) : String := dir ++ "/" ++ file

def upperStr (s : String) : String := String.mk (s.data.map Char.toUpper)

/-- `path.relative(cwd, p)` for the rooted paths used here. -/
def relativeTo (cwd p : String) : String :=
  if (cwd ++ "/").data.isPrefixOf p.data then String.mk (p.data.drop (cwd.data.length + 1))
  else p

/-- `.js` suffix test (on character lists, like every string operation
of this embedding). -/
def endsWithJs (s : String) : Bool := ".js".data.isSuffixOf s.data

/-- `path.basename(p, ".js")`. -/
def basenameNoExtJs (p : String) : String :=
  let base := String.mk ((p.data.reverse.takeWhile (fun c => !(c = '/'))).reverse)
  if endsWithJs base ∧ base ≠ ".js" then String.mk (base.data.take (base.data.length - 3))
  else base

/-- JS `String.prototype.replace` with a plain-string pattern: replace
the first occurrence only. -/
def replaceFirstGo (pat repl : List Char) : Nat → List Char → List Char
  | 0, cs => cs
  | _, [] => []
  | f + 1, c :: rest =>
    if pat.isPrefixOf (c :: rest) then repl ++ (c :: rest).drop pat.length
    else c :: replaceFirstGo pat repl f rest

def replaceFirstStr (s pat repl : String) : String :=
  String.mk (replaceFirstGo pat.data repl.data s.data.length s.data)

/-- The verb alternation of the first route regex, in source order. -/
def methodAlts1 : List String := ["get", "post", "put", "delete", "patch"]

/-- The verb alternation of the second route regex, in source order. -/
def methodAlts2 : List String := ["get", "post", "put", "delete", "patch", "options", "head"]

/-- Case-sensitive alternation: the first alternative that is a literal
prefix wins (no alternative is a prefix of another, so this is the
regex behaviour).  Returns the matched input slice and the rest. -/
def firstAltExact : List String → List Char → Option (List Char × List Char)
  | [], _ => none
  | a :: rest, cs =>
    if a.data.isPrefixOf cs then some (cs.take a.data.length, cs.drop a.data.length)
    else firstAltExact rest cs

/-- Case-insensitive alternation, for the `i`-flagged second regex. -/
def firstAltCI : List String → List Char → Option (List Char × List Char)
  | [], _ => none
  | a :: rest, cs =>
    match stripPrefixCI a.data cs with
    | some r => some (cs.take a.data.length, r)
    | none => firstAltCI rest cs

/-- The continuation after the lazy path group of the first regex: a
closing quote-class character, optional whitespace, a comma, optional
whitespace and a non-empty handler word.  `none` makes the lazy group
grow instead. -/
def closeQuote1 : List Char → Option (List Char × List Char)
  | [] => none
  | c :: rest =>
    if isQuoteChar c then
      match rest.dropWhile isRegexWs with
      | d :: r2 =>
        if d = ',' then
          let r3 := r2.dropWhile isRegexWs
          let w := r3.takeWhile isWord1
          if w = [] then none else some (w, r3.drop w.length)
        else none
      | [] => none
    else none

/-- The lazy dot-star of the first regex: grow the path one non-newline
character at a time until the continuation matches. -/
def lazyPathScan (acc : List Char) : List Char → Option (List Char × List Char × List Char)
  | [] => none
  | c :: rest =>
    match closeQuote1 (c :: rest) with
    | some (h, after) => some (acc.reverse, h, after)
    | none => if c = '\n' then none else lazyPathScan (c :: acc) rest

/-- One attempt of the first route regex at the current position. -/
def matchRoute1 (cs : List Char) : Option (RouteMatch × List Char) :=
  if "router.".data.isPrefixOf cs then
    let r1 := cs.drop "router.".data.length
    match firstAltExact methodAlts1 r1 with
    | none => none
    | some (m, r2) =>
      match r2 with
      | c :: r3 =>
        if c = '(' then
          match r3.dropWhile isRegexWs with
          | q :: r5 =>
            if isQuoteChar q then
              match lazyPathScan [] r5 with
              | some (p, h, after) => some (⟨m, p, h⟩, after)
              | none => none
            else none
          | [] => none
        else none
      | [] => none
  else none

/-- Global exec loop of a route regex: leftmost match, then continue
after the match. -/
def execAllGo (att : List Char → Option (RouteMatch × List Char)) :
    Nat → List Char → List RouteMatch
  | 0, _ => []
  | f + 1, cs =>
    match att cs with
    | some (m, rest) => m :: execAllGo att f rest
    | none =>
      match cs with
      | [] => []
      | _ :: t => execAllGo att f t

/-- One attempt of the second route regex (the `gi`-flagged one with a
greedy non-quote path class and a `$`-extended handler class). -/
def matchRoute2 (cs : List Char) : Option (RouteMatch × List Char) :=
  match stripPrefixCI "router.".data cs with
  | none => none
  | some r1 =>
    match firstAltCI methodAlts2 r1 with
    | none => none
    | some (m, r2) =>
      match r2.dropWhile isRegexWs with
      | [] => none
      | c :: r4 =>
        if c = '(' then
          match r4.dropWhile isRegexWs with
          | [] => none
          | q :: r6 =>
            if isQuoteChar q then
              let p := r6.takeWhile (fun x => !isQuoteChar x)
              if p = [] then none
              else
                match r6.drop p.length with
                | [] => none
                | q2 :: r8 =>
                  if isQuoteChar q2 then
                    match r8.dropWhile isRegexWs with
                    | [] => none
                    | comma :: r10 =>
                      if comma = ',' then
                        let r11 := r10.dropWhile isRegexWs
                        let h := r11.takeWhile isWord2
                        if h = [] then none else some (⟨m, p, h⟩, r11.drop h.length)
                      else none
                  else none
            else none
        else none

structure Endpoint1 where
  method : String
  path : String
  handler : String
  controller : String

structure Endpoint2 where
  method : String
  path : String
  handler : String
  file : String

namespace ReflectorMain

/-- `scanRoutesFile` of the guarded reflector: warn and return `[]` on a
missing path, else read the file, derive the controller file name from
the base name and collect every regex match. -/
def scanRoutesFile (fs : FS) (filePath : String) :
    Except String (List Warn × List Endpoint1) :=
  if fs.existsPath filePath = false then .ok ([.routeFileNotFound filePath], [])
  else
    match fs.readFile filePath with
    | .error e => .error e
    | .ok code =>
      let controllerFile := replaceFirstStr (basenameNoExtJs filePath) ".routes" ".controller.js"
      .ok ([], (execAllGo matchRoute1 (code.data.length + 1) code.data).map (fun m =>
        ⟨upperStr (String.mk m.method), String.mk m.path, String.mk m.handler,
          controllerFile⟩))

def scanFilesGo (fs : FS) (dirPath : String) :
    List String → Except String (List Warn × List Endpoint1)
  | [] => .ok ([], [])
  | f :: rest =>
    match scanRoutesFile fs (pathJoin dirPath f) with
    | .error e => .error e
    | .ok (w1, e1) =>
      match scanFilesGo fs dirPath rest with
      | .error e => .error e
      | .ok (w2, e2) => .ok (w1 ++ w2, e1 ++ e2)

/-- `scanRoutesDirectory` of the guarded reflector: warn and return `[]`
on a missing path, else scan every `.js` entry. -/
def scanRoutesDirectory (fs : FS) (dirPath : String) :
    Except String (List Warn × List Endpoint1) :=
  if fs.existsPath dirPath = false then .ok ([.routesDirNotFound dirPath], [])
  else
    match fs.readdir dirPath with
    | .error e => .error e
    | .ok files => scanFilesGo fs dirPath (files.filter endsWithJs)

end ReflectorMain

namespace ReflectorAlt

/-- `extractEndpointsFromFile` of the second reflector: reads without an
existence check, so a missing path propagates the `ENOENT` error. -/
def extractEndpointsFromFile (fs : FS) (filePath : String) :
    Except String (List Endpoint2) :=
  match fs.readFile filePath with
  | .error e => .error e
  | .ok code =>
    .ok ((execAllGo matchRoute2 (code.data.length + 1) code.data).map (fun m =>
      ⟨upperStr (String.mk m.method), String.mk m.path, String.mk m.handler,
        relativeTo fs.cwd filePath⟩))

def scanFilesGo (fs : FS) (routesDir : String) :
    List String → Except String (List Endpoint2)
  | [] => .ok []
  | f :: rest =>
    match extractEndpointsFromFile fs (pathJoin routesDir f) with
    | .error e => .error e
    | .ok e1 =>
      match scanFilesGo fs routesDir rest with
      | .error e => .error e
      | .ok e2 => .ok (e1 ++ e2)

/-- `scanRoutesDirectory` of the second reflector: lists the directory
without an existence check, so a missing path propagates the `ENOENT`
error. -/
def scanRoutesDirectory (fs : FS) (routesDir : String) :
    Except String (List Endpoint2) :=
  match fs.readdir routesDir with
  | .error e => .error e
  | .ok files => scanFilesGo fs routesDir (files.filter endsWithJs)

end ReflectorAlt

/-! ### GenAI client (src/genai/client.js, `analyzeEndpoint`)

The client state records whether the SDK loaded and initialized, the
default model id, and a network oracle giving the outcome of the call
made by a given attempt (the HTTP layer itself is external).  Errors
carry the `p-retry` abort flag: `p-retry` re-runs the task on an
ordinary rejection and stops early only for an `AbortError` (or a
non-network `TypeError`); every error thrown by this module is an
ordinary `Error`, so its `abort` flag is `false`. -/

structure JsError where
  msg : String
  abort : Bool

def initErr : JsError :=
  ⟨"GenAI client not initialized. Install @google/genai and set GEMINI_API_KEY in .env",
   false⟩

def payloadErr : JsError :=
  ⟨"analyzeEndpoint expects a payload with payload.function.cleanedCode/sanitizedCode",
   false⟩

structure GenAIState where
  clientInitialized : Bool
  defaultModel : String
  network : String → String → Nat → Except JsError String

structure EpPayload where
  method : Option String
  path : Option String
  handler : Option String

structure FnPayload where
  name : Option String
  isAsync : Option Bool
  lines : Option Nat
  sanitizedCode : Option String
  cleanedCode : Option String

/-- The argument of `analyzeEndpoint`; `fn` is `payload.function` and
`metadata` is kept in its serialized form (it is only ever interpolated
through `JSON.stringify`). -/
structure Payload where
  endpoint : Option EpPayload
  fn : Option FnPayload
  metadata : Option String

def showOptStr (o : Option String) (d : String) : String := o.getD d

def showOptBool : Option Bool → String
  | none => "undefined"
  | some true => "true"
  | some false => "false"

def showOptNat : Option Nat → String
  | none => "undefined"
  | some n => toString n

def joinLines : List String → String
  | [] => ""
  | [l] => l
  | l :: ls => l ++ "\n" ++ joinLines ls

/-- `buildAnalysisPrompt(payload)`. -/
def buildAnalysisPrompt (p : Payload) : String :=
  let ep := p.endpoint.getD ⟨none, none, none⟩
  let fn := p.fn.getD ⟨none, none, none, none, none⟩
  let meta := p.metadata.getD "\x7b\x7d"
  joinLines
    ["You are an expert Node.js/Express backend engineer focused on performance and scalability.",
     "Analyze the following Express API endpoint and provide:",
     "  1) A short summary of what it does (1-2 lines).",
     "  2) Performance issues and why they are problems (bulleted).",
     "  3) Concrete optimizations (code-level suggestions) with explanation.",
     "  4) Estimated difficulty (low/medium/high) and estimated impact (low/medium/high).",
     "  5) If safe, provide a concise \"before -> after\" pseudo-code snippet illustrating the change.",
     "",
     "CONSTRAINTS:",
     " - Reply in JSON with keys: summary, issues (array), suggestions (array), before_after (string|null), notes.",
     " - Do not include secrets or PII; assume code is sanitized.",
     " - Keep each suggestion short and actionable.",
     "",
     "ENDPOINT METADATA:",
     "Method: " ++ showOptStr ep.method "UNKNOWN" ++ ", Path: " ++ showOptStr ep.path "UNKNOWN"
       ++ ", Handler: " ++ showOptStr ep.handler "UNKNOWN",
     "Function name: " ++ showOptStr fn.name "unknown" ++ ", async: " ++ showOptBool fn.isAsync
       ++ ", lines: " ++ showOptNat fn.lines,
     "Extra metadata: " ++ meta,
     "",
     "SANITIZED CODE (analyze this):",
     "\x60\x60\x60js",
     showOptStr fn.sanitizedCode (showOptStr fn.cleanedCode "// no code provided"),
     "\x60\x60\x60",
     "",
     "Return ONLY valid JSON. Don\x27t add commentary outside JSON."]

/-- `generateTextWithGenAI(model, prompt)` for attempt number `attempt`:
an uninitialized client throws before any network call (second component
counts network calls: 0 here, 1 once the oracle is consulted). -/
def generateTextWithGenAI (st : GenAIState) (model prompt : String) (attempt : Nat) :
    Except JsError String × Nat :=
  if st.clientInitialized = false then (.error initErr, 0)
  else
    match st.network model prompt attempt with
    | .ok text => (.ok text, 1)
    | .error e => (.error e, 1)

/-- The greedy brace-span parse of the raw model text done inside the
`run` closure (lines 162-174 of client.js): slice from the first brace
to the last when that span is proper, else parse the raw text; a parse
error yields `null`. -/
def parseRawBraceSpan (raw : String) : Option JsonValue :=
  let cs := raw.data
  match List.findIdx? (fun c => c = braceL) cs, lastIdxOf braceR cs with
  | some i, some j =>
    if i < j then jsonParseList ((cs.drop i).take (j + 1 - i)) else jsonParseList cs
  | some _, none => jsonParseList cs
  | none, _ => jsonParseList cs

/-- What `analyzeEndpoint` resolves with on success. -/
structure RunResult where
  raw : String
  parsed : Option JsonValue

/-- The `run` closure passed to `pRetry`. -/
def runOnce (st : GenAIState) (model prompt : String) (attempt : Nat) :
    Except JsError RunResult × Nat :=
  match generateTextWithGenAI st model prompt attempt with
  | (.error e, n) => (.error e, n)
  | (.ok raw, n) => (.ok ⟨raw, parseRawBraceSpan raw⟩, n)

/-- Outcome of a `pRetry`-wrapped call, instrumented with the number of
attempts made and of network calls performed. -/
structure CallTrace where
  result : Except JsError RunResult
  attempts : Nat
  networkCalls : Nat

/-- `pRetry(run, attempt retriesLeft)`: run once; an `ok` result or an
aborting error returns immediately, an ordinary error is retried while
retries remain, and the last error is returned when they run out. -/
def pRetryGo (run : Nat → Except JsError RunResult × Nat) :
    Nat → Nat → CallTrace
  | attempt, retriesLeft =>
    match run attempt with
    | (.ok res, nc) => ⟨.ok res, 1, nc⟩
    | (.error e, nc) =>
      if e.abort then ⟨.error e, 1, nc⟩
      else
        match retriesLeft with
        | 0 => ⟨.error e, 1, nc⟩
        | r + 1 =>
          let t := pRetryGo run (attempt + 1) r
          ⟨t.result, t.attempts + 1, nc + t.networkCalls⟩

/-- `analyzeEndpoint(payload, opts)`: reject a payload without a
function part before any attempt, then run the request under
`pRetry(run, \x7b retries: opts.retries ?? 3 \x7d)`. -/
structure AnalyzeOpts where
  model : Option String
  retries : Option Nat

def analyzeEndpoint (st : GenAIState) (payload : Option Payload) (opts : AnalyzeOpts) :
    CallTrace :=
  match payload with
  | none => ⟨.error payloadErr, 0, 0⟩
  | some p =>
    match p.fn with
    | none => ⟨.error payloadErr, 0, 0⟩
    | some _ =>
      let model := opts.model.getD st.defaultModel
      let prompt := buildAnalysisPrompt p
      pRetryGo (runOnce st model prompt) 0 (opts.retries.getD 3)

/-! ### Concrete inputs used by the claims -/

/-- A controller file in which a matching variable binding (inside an
enclosing function, hence earlier in document order) precedes a
top-level function declaration of the same name.  (Two top-level
bindings of one name would be a module-scope redeclaration error, which
Babel rejects, so the earlier binding is nested.) -/
def c1_pre : String := "function wrapper() \x7b var foo = "

def c1_arrow : String := "() => 1"

def c1_mid : String := "; \x7d\n"

def c1_fn : String := "function foo() \x7b return 2; \x7d"

def c1_code : String := c1_pre ++ c1_arrow ++ c1_mid ++ c1_fn

def c1_arrowStart : Nat := c1_pre.data.length

def c1_arrowEnd : Nat := c1_arrowStart + c1_arrow.data.length

def c1_fnStart : Nat := c1_arrowEnd + c1_mid.data.length

def c1_fnEnd : Nat := c1_fnStart + c1_fn.data.length

/-- The parse tree Babel produces for `c1_code`: the `wrapper`
declaration (its identifier, then its block containing the variable
declaration with the `foo = () => 1` declarator), then the top-level
`foo` declaration. -/
def c1_ast : List Node :=
  [Node.mk (.fnDecl (some "wrapper") ⟨0, c1_arrowEnd + 3, false⟩)
    [Node.mk .otherKind [],
     Node.mk .otherKind
       [Node.mk .otherKind
         [Node.mk (.varDeclarator (some "foo")
             (some (.arrowFn ⟨c1_arrowStart, c1_arrowEnd, false⟩)))
           [Node.mk .otherKind []]]]],
   Node.mk (.fnDecl (some "foo") ⟨c1_fnStart, c1_fnEnd, false⟩)
     [Node.mk .otherKind [], Node.mk .otherKind []]]

/-- A controller file whose handler is a plain function declaration,
with surrounding content. -/
def c8_declA : String := "function foo(req, res) \x7b return res.send(1); \x7d"

def c8_preA : String := "// users controller\n"

def c8_fileA : String := c8_preA ++ c8_declA ++ "\n"

def c8_astA : List Node :=
  [Node.mk (.fnDecl (some "foo")
      ⟨c8_preA.data.length, c8_preA.data.length + c8_declA.data.length, false⟩)
    [Node.mk .otherKind [], Node.mk .otherKind [], Node.mk .otherKind []]]

/-- A controller file whose handler is a `const` binding of an async
arrow function. -/
def c8_preB : String := "const foo = "

def c8_arrowB : String := "async (req, res) => \x7b return 1; \x7d"

def c8_fileB : String := c8_preB ++ c8_arrowB ++ ";\n"

def c8_astB : List Node :=
  [Node.mk .otherKind
    [Node.mk (.varDeclarator (some "foo")
        (some (.arrowFn ⟨c8_preB.data.length, c8_preB.data.length + c8_arrowB.data.length,
          true⟩)))
      [Node.mk .otherKind []]]]

/-- The raw model text of the response round-trip property. -/
def c5_raw : String :=
  "\x60\x60\x60json\n\x7b\"summary\":\"ok\",\"issues\":[],\"suggestions\":[],\"before_after\":null,\"notes\":\"n\"\x7d\n\x60\x60\x60"

/-- The malformed input of the auto-repair property (trailing comma). -/
def c6_raw : String := "\x7b\"summary\":\"ok\",\"issues\":[],\x7d"

/-- A valid raw response whose `summary` string value contains `JSON`. -/
def c10_raw : String :=
  "\x7b\"summary\":\"JSON parsing\",\"issues\":[],\"suggestions\":[],\"before_after\":null,\"notes\":\"n\"\x7d"

/-- A filesystem with one route file of one endpoint line. -/
def c9_fs : FS :=
  ⟨[("/app/routes/user.routes.js", "router.get(\"/users/:id\", getUser)")],
   [("/app/routes", ["user.routes.js"])], "/app"⟩

/-- An empty filesystem: every path is missing. -/
def emptyFS : FS := ⟨[], [], "/app"⟩

/-- A client whose SDK never initialized (missing dependency or
credentials); the oracle is irrelevant since it is never consulted. -/
def unconfiguredState : GenAIState :=
  ⟨false, "gemini-2.5-flash", fun _ _ _ => .ok "\x7b\x7d"⟩

/-- A transport failure, an ordinary (non-abort) error. -/
def transientErr : JsError := ⟨"fetch failed", false⟩

/-- An initialized client whose every network call fails transiently. -/
def flakyState : GenAIState :=
  ⟨true, "gemini-2.5-flash", fun _ _ _ => .error transientErr⟩

def okFn : FnPayload := ⟨some "getUser", some false, some 3, some "// code", none⟩

def okPayload : Payload := ⟨none, some okFn, none⟩

/-- `analyzeEndpoint` called without options: `opts.model` and
`opts.retries` are both undefined. -/
def defaultOpts : AnalyzeOpts := ⟨none, none⟩

/-! ### Helper lemmas -/

theorem findSomeAppend {α β : Type} (f : α → Option β) :
    (l1 l2 : List α) → List.findSome? f (l1 ++ l2) =
      (match List.findSome? f l1 with
       | some b => some b
       | none => List.findSome? f l2)
  | [], _ => by simp [List.findSome?]
  | a :: l1, l2 => by
    simp only [List.cons_append, List.findSome?]
    cases f a <;> simp [findSomeAppend f l1 l2]

mutual

theorem visitNode_eq_findSome (code handler : String) :
    (n : Node) → visitNode code handler n =
      List.findSome? (checkNode code handler) (preorderNode n)
  | .mk k cs => by
    have hrec := visitList_eq_findSome code handler cs
    simp only [visitNode, preorderNode, List.findSome?]
    cases checkNode code handler k <;> simp [hrec]

theorem visitList_eq_findSome (code handler : String) :
    (ns : List Node) → visitList code handler ns =
      List.findSome? (checkNode code handler) (preorderList ns)
  | [] => by simp [visitList, preorderList, List.findSome?]
  | n :: ns => by
    have h1 := visitNode_eq_findSome code handler n
    have h2 := visitList_eq_findSome code handler ns
    simp only [visitList, preorderList]
    rw [findSomeAppend, ← h1, ← h2]
    cases visitNode code handler n <;> simp

end

theorem runOnce_unconfigured (st : GenAIState) (model prompt : String)
    (h : st.clientInitialized = false) (attempt : Nat) :
    runOnce st model prompt attempt = (.error initErr, 0) := by
  simp [runOnce, generateTextWithGenAI, h]

theorem pRetryGo_const_error (run : Nat → Except JsError RunResult × Nat) (e : JsError)
    (he : e.abort = false) (hrun : ∀ i, run i = (.error e, 0)) :
    ∀ (r i : Nat), pRetryGo run i r = ⟨.error e, r + 1, 0⟩
  | 0, i => by simp [pRetryGo, hrun i, he]
  | r + 1, i => by
    have ih := pRetryGo_const_error run e he hrun r (i + 1)
    simp [pRetryGo, hrun i, he, ih]

theorem pRetryGo_attempts_le (run : Nat → Except JsError RunResult × Nat) :
    ∀ (r i : Nat), (pRetryGo run i r).attempts ≤ r + 1
  | 0, i => by
    rw [pRetryGo]
    cases hri : run i with
    | mk fst snd =>
      cases fst with
      | ok v => simp
      | error e => cases he : e.abort <;> simp [he]
  | r + 1, i => by
    have ih := pRetryGo_attempts_le run r (i + 1)
    rw [pRetryGo]
    cases hri : run i with
    | mk fst snd =>
      cases fst with
      | ok v => simp
      | error e =>
        cases he : e.abort
        · simp [he]
          omega
        · simp [he]

/-! ### Claims -/

/-- C1 (counterexample): the claimed search order is false.  In a file
holding a matching variable binding earlier in document order and a
top-level function declaration `foo` later, `extractFunctionCode`
returns the binding's arrow-function text, not the declaration span,
because the single Babel traversal stops at the first matching node of
either kind. -/
theorem c1_search_order_counterexample :
    extractFunctionCode true c1_code c1_ast "foo" = some ⟨"foo", "() => 1", false⟩
    ∧ sliceStr c1_code c1_fnStart c1_fnEnd = "function foo() \x7b return 2; \x7d"
    ∧ ("() => 1" : String) ≠ "function foo() \x7b return 2; \x7d" :=
  ⟨rfl, rfl, by decide⟩

/-- C1 (amended): `extractFunctionCode` performs one pre-order traversal
with both visitors registered and `path.stop()` on a match, so it
returns the extraction of the first node in document order — at any
depth and of either kind (named function declaration, or binding of the
name to a function or arrow-function literal) — not function
declarations first. -/
theorem c1_first_match_in_document_order (code handlerName : String) (ast : List Node) :
    extractFunctionCode true code ast handlerName =
      List.findSome? (checkNode code handlerName) (preorderList ast) := by
  simpa [extractFunctionCode] using visitList_eq_findSome code handlerName ast

/-- C2 (counterexample): with the client not configured,
`analyzeEndpoint` under default options makes 4 attempts — the
initialization error is an ordinary `Error`, which `p-retry` retries —
so "no retry attempt" is false (no network call is ever made, though). -/
theorem c2_no_retry_counterexample :
    analyzeEndpoint unconfiguredState (some okPayload) defaultOpts =
      ⟨.error initErr, 4, 0⟩
    ∧ (4 : Nat) ≠ 1 :=
  ⟨rfl, by decide⟩

/-- C2 (amended): when the client is not configured, every attempt fails
immediately with the initialization error and no network request is ever
made, but the error is retried like any other failure: the call makes
`retries + 1` attempts (4 under the default) before the error
propagates. -/
theorem c2_unconfigured_client_behavior (st : GenAIState) (p : Payload) (fn : FnPayload)
    (opts : AnalyzeOpts) (hc : st.clientInitialized = false) (hf : p.fn = some fn) :
    analyzeEndpoint st (some p) opts =
      ⟨.error initErr, opts.retries.getD 3 + 1, 0⟩ := by
  simp only [analyzeEndpoint, hf]
  exact pRetryGo_const_error _ initErr rfl
    (fun i => runOnce_unconfigured st _ _ hc i) (opts.retries.getD 3) 0

/-- C2 (witness): the amended behaviour at the concrete unconfigured
client and default options. -/
theorem c2_unconfigured_client_witness :
    unconfiguredState.clientInitialized = false
    ∧ okPayload.fn = some okFn
    ∧ analyzeEndpoint unconfiguredState (some okPayload) defaultOpts =
        ⟨.error initErr, 4, 0⟩ :=
  ⟨rfl, rfl,
   c2_unconfigured_client_behavior unconfiguredState okPayload okFn defaultOpts rfl rfl⟩

/-- C3 (counterexample): the second reflector's directory scan has no
existence check, so scanning a missing directory raises (propagates the
`ENOENT` error) instead of returning an empty sequence. -/
theorem c3_unguarded_scan_counterexample :
    ReflectorAlt.scanRoutesDirectory emptyFS "/app/routes" =
      .error "ENOENT: no such file or directory, scandir /app/routes" :=
  rfl

/-- C3 (amended): for a missing path, only the guarded implementation
(`ReflectorMain.scanRoutesFile` and its directory scan) returns an empty
sequence with a warning and never raises; the second implementation
(`ReflectorAlt.extractEndpointsFromFile` and its directory scan)
performs no existence check and propagates the filesystem error. -/
theorem c3_missing_path_behavior (fs : FS) (p : String) (h : fs.existsPath p = false) :
    ReflectorMain.scanRoutesFile fs p = .ok ([.routeFileNotFound p], [])
    ∧ ReflectorMain.scanRoutesDirectory fs p = .ok ([.routesDirNotFound p], [])
    ∧ ReflectorAlt.extractEndpointsFromFile fs p =
        .error ("ENOENT: no such file or directory, open " ++ p)
    ∧ ReflectorAlt.scanRoutesDirectory fs p =
        .error ("ENOENT: no such file or directory, scandir " ++ p) := by
  have hf : fs.files.lookup p = none := by
    cases hl : fs.files.lookup p with
    | none => rfl
    | some v => simp [FS.existsPath, hl] at h
  have hd : fs.dirs.lookup p = none := by
    cases hl : fs.dirs.lookup p with
    | none => rfl
    | some v => simp [FS.existsPath, hl] at h
  refine ⟨?_, ?_, ?_, ?_⟩
  · simp [ReflectorMain.scanRoutesFile, h]
  · simp [ReflectorMain.scanRoutesDirectory, h]
  · simp [ReflectorAlt.extractEndpointsFromFile, FS.readFile, hf]
  · simp [ReflectorAlt.scanRoutesDirectory, FS.readdir, hd]

/-- C3 (witness): the amended behaviour on the empty filesystem. -/
theorem c3_missing_path_witness :
    emptyFS.existsPath "/app/api" = false
    ∧ (ReflectorMain.scanRoutesFile emptyFS "/app/api" =
          .ok ([.routeFileNotFound "/app/api"], [])
        ∧ ReflectorMain.scanRoutesDirectory emptyFS "/app/api" =
          .ok ([.routesDirNotFound "/app/api"], [])
        ∧ ReflectorAlt.extractEndpointsFromFile emptyFS "/app/api" =
          .error ("ENOENT: no such file or directory, open " ++ "/app/api")
        ∧ ReflectorAlt.scanRoutesDirectory emptyFS "/app/api" =
          .error ("ENOENT: no such file or directory, scandir " ++ "/app/api")) :=
  ⟨rfl, c3_missing_path_behavior emptyFS "/app/api" rfl⟩

/-- C4 (counterexample): with a persistently failing network and default
options, `analyzeEndpoint` makes 4 total invocation attempts, so "no
more than 3 total attempts by default" is false (`opts.retries ?? 3` is
the number of retries after the first attempt). -/
theorem c4_attempt_count_counterexample :
    analyzeEndpoint flakyState (some okPayload) defaultOpts =
      ⟨.error transientErr, 4, 4⟩
    ∧ ¬ ((4 : Nat) ≤ 3) :=
  ⟨rfl, by decide⟩

/-- C4 (amended): `analyzeEndpoint` runs under a bounded retry policy
whose per-call configurable count `opts.retries` (default 3) bounds the
retries after the first attempt: the total number of invocation attempts
is at most `opts.retries + 1` — by default at most 4 — before the last
error is propagated. -/
theorem c4_attempt_bound (st : GenAIState) (payload : Option Payload) (opts : AnalyzeOpts) :
    (analyzeEndpoint st payload opts).attempts ≤ opts.retries.getD 3 + 1 := by
  cases payload with
  | none => simp [analyzeEndpoint]
  | some p =>
    cases hf : p.fn with
    | none => simp [analyzeEndpoint, hf]
    | some fn =>
      simp only [analyzeEndpoint, hf]
      exact pRetryGo_attempts_le _ _ _

/-- C5: the response round-trip — for the fenced raw text with the given
object, `cleanGeminiResponse` returns the insight whose five fields are
exactly those values. -/
theorem c5_response_roundtrip :
    cleanGeminiResponse c5_raw =
      .ok (.insight (.str "ok") (.arr []) (.arr []) .null (.str "n")) :=
  rfl

/-- C6: auto-repair — the trailing-comma input parses after the single
repair pass and yields a normalized insight with summary `ok` and no
error shape. -/
theorem c6_autorepair_trailing_comma :
    cleanGeminiResponse c6_raw =
      .ok (.insight (.str "ok") (.arr []) (.arr []) .null (.str "No notes provided.")) :=
  rfl

/-- C7: for every non-empty raw text whose cleaned candidate fails to
parse even after auto-repair, `cleanGeminiResponse` returns the
error-shaped result with a non-empty error and snippets built from at
most 400 characters of the extracted candidate and of the raw text. -/
theorem c7_unrecoverable_input (raw : String) (h0 : raw ≠ "")
    (h1 : jsonParseList (cleanupCandidate (extractCandidate raw.data)) = none)
    (h2 : jsonParseList (autoFix (cleanupCandidate (extractCandidate raw.data))) = none) :
    cleanGeminiResponse raw =
      .ok (.errParse "Invalid JSON (even after auto-fix)"
        (String.mk ((cleanupCandidate (extractCandidate raw.data)).take 400 ++ "...".data))
        (String.mk (raw.data.take 400 ++ "...".data)))
    ∧ ("Invalid JSON (even after auto-fix)" : String) ≠ ""
    ∧ ((cleanupCandidate (extractCandidate raw.data)).take 400).length ≤ 400
    ∧ (raw.data.take 400).length ≤ 400 := by
  have hnil : raw.data ≠ [] := by
    intro hn
    exact h0 (String.ext hn)
  refine ⟨?_, by decide, ?_, ?_⟩
  · simp only [cleanGeminiResponse, if_neg hnil, h1, h2]
  · rw [List.length_take]
    exact min_le_left _ _
  · rw [List.length_take]
    exact min_le_left _ _

/-- C7 (witness): the unrecoverable behaviour at the concrete raw text
`no braces here`. -/
theorem c7_unrecoverable_witness :
    ("no braces here" : String) ≠ ""
    ∧ jsonParseList (cleanupCandidate (extractCandidate ("no braces here" : String).data)) = none
    ∧ jsonParseList (autoFix (cleanupCandidate (extractCandidate ("no braces here" : String).data))) = none
    ∧ (cleanGeminiResponse "no braces here" =
        .ok (.errParse "Invalid JSON (even after auto-fix)"
          (String.mk ((cleanupCandidate (extractCandidate ("no braces here" : String).data)).take 400 ++ "...".data))
          (String.mk (("no braces here" : String).data.take 400 ++ "...".data)))
      ∧ ("Invalid JSON (even after auto-fix)" : String) ≠ ""
      ∧ ((cleanupCandidate (extractCandidate ("no braces here" : String).data)).take 400).length ≤ 400
      ∧ (("no braces here" : String).data.take 400).length ≤ 400) :=
  ⟨by decide, rfl, rfl, c7_unrecoverable_input "no braces here" (by decide) rfl rfl⟩

/-- C8: extraction spans — the declared handler yields exactly the
declaration span with `isAsync = false`; the `const`-bound async arrow
handler yields exactly the arrow-function span (not the whole statement)
with `isAsync = true`. -/
theorem c8_extraction_spans :
    extractFunctionCode true c8_fileA c8_astA "foo" = some ⟨"foo", c8_declA, false⟩
    ∧ extractFunctionCode true c8_fileB c8_astB "foo" = some ⟨"foo", c8_arrowB, true⟩
    ∧ c8_arrowB ≠ c8_fileB :=
  ⟨rfl, rfl, by decide⟩

/-- C9: scanner precision — on the single route line both scanner
implementations yield exactly one endpoint record with method `GET`,
path `/users/:id` and handler `getUser` (plus their derived
controller-file/route-file fields). -/
theorem c9_scanner_precision :
    ReflectorMain.scanRoutesFile c9_fs "/app/routes/user.routes.js" =
      .ok ([], [⟨"GET", "/users/:id", "getUser", "user.controller.js"⟩])
    ∧ ReflectorAlt.extractEndpointsFromFile c9_fs "/app/routes/user.routes.js" =
      .ok [⟨"GET", "/users/:id", "getUser", "routes/user.routes.js"⟩] :=
  ⟨rfl, rfl⟩

/-- C10: the cleanup of the candidate deletes every case-insensitive
occurrence of `json` before any parse attempt, including inside string
literals: the raw text below is valid JSON whose summary value is
`JSON parsing`, yet the returned insight's summary is ` parsing`, a
different value. -/
theorem c10_json_token_deleted_in_strings :
    jsonParseList c10_raw.data =
      some (.obj [("summary", .str "JSON parsing"), ("issues", .arr []),
        ("suggestions", .arr []), ("before_after", .null), ("notes", .str "n")])
    ∧ cleanupCandidate (extractCandidate c10_raw.data) =
        "\x7b\"summary\":\" parsing\",\"issues\":[],\"suggestions\":[],\"before_after\":null,\"notes\":\"n\"\x7d".data
    ∧ cleanGeminiResponse c10_raw =
        .ok (.insight (.str " parsing") (.arr []) (.arr []) .null (.str "n"))
    ∧ (JsonValue.str " parsing") ≠ (JsonValue.str "JSON parsing") :=
  ⟨rfl, rfl, rfl, by
    intro h
    injection h with h2
    exact absurd h2 (by decide)⟩
